import Mathlib

/-!
# Formal model of `scripts/evaluate.py`

This file is a shallow embedding of the measurement-evaluation script of the
counting-sort benchmark repository.  Python floats are modelled as exact
rationals (`ℚ`), Python exceptions as an explicit error type threaded through
`Except` / result pairs, Python strings as `String` (operated on as `List Char`),
and the dictionaries of the script as association lists in insertion order
(Python dictionaries preserve insertion order and have unique keys).

The functions keep the names of the script where possible:
`my_round`, `calculate_means` (split into the per-column estimator
`columnMean` and the per-file summary `fileMeans`), `parse_file_name`,
`create_row`, `make_table` (split into `processFile`, `processFiles` and
`processSubdirs`, its per-file, per-file-list and per-directory loops) and
`pyMain`.  The file system visible to the script (its immediate
subdirectories and the `listdir` content of each) is a parameter `FSys`.
-/

set_option maxRecDepth 100000

/-- The Python exceptions the modelled code can raise:
`ValueError` (from `str.index` / `int`), `KeyError` (dict lookup),
`NameError` (reading an unbound local such as `time_serial` or `first_row`),
`ZeroDivisionError`, and `IndexError` (from `listdir(subdir)[0]`). -/
inductive PyErr where
  | valueError
  | keyError
  | nameError
  | zeroDivisionError
  | indexError
deriving DecidableEq

/-- Round a rational to an integer with ties to even, the rounding mode of
`round(Decimal(num), 5)` (`decimal` default context `ROUND_HALF_EVEN`). -/
def halfEven (x : ℚ) : ℤ :=
  let f := ⌊x⌋
  let r := x - (f : ℚ)
  if r < 1/2 then f
  else if (1 : ℚ)/2 < r then f + 1
  else if f % 2 = 0 then f else f + 1

/-- `my_round(num)`: round to the first 5 decimal digits via `Decimal`. -/
def my_round (x : ℚ) : ℚ := ((halfEven (x * 100000) : ℤ) : ℚ) / 100000

/-- Location parameter of `norm.fit(data)`: the maximum-likelihood mean of a
normal distribution, i.e. the sample mean. -/
def fitMean (xs : List ℚ) : ℚ := xs.sum / xs.length

/-- Square of the scale parameter of `norm.fit(data)`: the maximum-likelihood
(population) variance.  The script only uses the scale `std` through the
comparison `mean - std < x < mean + std`, which is equivalent to
`(x - mean)^2 < std^2`, so the model can stay inside `ℚ`. -/
def fitVar (xs : List ℚ) : ℚ :=
  ((xs.map (fun x => (x - fitMean xs) ^ 2)).sum) / xs.length

/-- The subsample kept by
`content[(content[col] > (mean - std)) & (content[col] < (mean + std))][col]`:
samples strictly inside `(mean - std, mean + std)`, stated without square
roots as `(x - mean)^2 < var`. -/
def keptSamples (xs : List ℚ) : List ℚ :=
  xs.filter (fun x => decide ((x - fitMean xs) ^ 2 < fitVar xs))

/-- One column of `calculate_means`: fit, trim to one standard deviation,
use `my_round(0.0)` if nothing remains, otherwise refit; the stored value is
`my_round(mean)`. -/
def columnMean (xs : List ℚ) : ℚ :=
  let kept := keptSamples xs
  let mean := if kept = [] then my_round 0 else fitMean kept
  my_round mean

/-- The per-file dictionary built by `calculate_means`, in insertion order:
`time_init`, `time_sort`, then
`time_elapsed = my_round(file_mean["time_init"] + file_mean["time_sort"])`. -/
def fileMeans (timeInit timeSort : List ℚ) : List (String × ℚ) :=
  [("time_init", columnMean timeInit),
   ("time_sort", columnMean timeSort),
   ("time_elapsed", my_round (columnMean timeInit + columnMean timeSort))]

/-- The outer dictionary of `calculate_means`, keyed by file name.  The raw
CSV content of each file is abstracted to its two tracked columns. -/
abbrev Means : Type := List (String × List (String × ℚ))

/-- `calculate_means(files)` over the parsed column data of every file. -/
def calculate_means (data : List (String × (List ℚ × List ℚ))) : Means :=
  data.map (fun d => (d.1, fileMeans d.2.1 d.2.2))

/-! ## String helpers (Python semantics) -/

/-- `pat` is a prefix of `hay`. -/
def startsWithL : List Char → List Char → Bool
  | [], _ => true
  | _ :: _, [] => false
  | p :: ps, h :: hs => p == h && startsWithL ps hs

/-- Python `pat in hay` / `hay.find(pat) >= 0`: substring occurrence. -/
def containsL : List Char → List Char → Bool
  | [], pat => startsWithL pat []
  | h :: hs, pat => startsWithL pat (h :: hs) || containsL hs pat

/-- Python `s.find(sub) >= 0`. -/
def containsStr (s sub : String) : Bool := containsL s.toList sub.toList

/-- Python `s.endswith(suffix)`. -/
def endsWithStr (s suffix : String) : Bool :=
  startsWithL suffix.toList.reverse s.toList.reverse

/-- Python string `<` (lexicographic on code points). -/
def strLtL : List Char → List Char → Bool
  | [], [] => false
  | [], _ :: _ => true
  | _ :: _, [] => false
  | a :: as, b :: bs => if a < b then true else if b < a then false else strLtL as bs

/-- `a <= b` for Python's `sorted`. -/
def strLe (a b : String) : Bool := !(strLtL b.toList a.toList)

/-- Stable insertion used to model Python `sorted`. -/
def insertSorted (a : String) : List String → List String
  | [] => [a]
  | b :: bs => if strLe a b then a :: b :: bs else b :: insertSorted a bs

/-- Python `sorted` on strings (insertion sort; same result on any input). -/
def pySorted : List String → List String
  | [] => []
  | a :: as => insertSorted a (pySorted as)

/-- `os.path.basename`: everything after the last `'/'`. -/
def pyBasename (cs : List Char) : List Char :=
  cs.foldl (fun acc c => if c = '/' then [] else acc ++ [c]) []

/-- Python `s.index(c, start)`: position of the first occurrence of `c` at or
after `start`; `none` models the `ValueError`. -/
def charIndexFrom (cs : List Char) (c : Char) (start : ℕ) : Option ℕ :=
  ((cs.drop start).findIdx? (fun a => a == c)).map (fun i => i + start)

/-- Python slice `s[a:b]` for `a ≤ b`. -/
def pySlice (cs : List Char) (a b : ℕ) : List Char := (cs.drop a).take (b - a)

/-- Digit-and-underscore scan of Python `int`: `seen` records whether the
previous character was a digit (underscores are legal only between digits). -/
def pyDigits : List Char → ℕ → Bool → Option ℕ
  | [], acc, seen => if seen then some acc else none
  | c :: cs, acc, seen =>
    if c.isDigit then pyDigits cs (10 * acc + (c.toNat - 48)) true
    else if c = '_' then (if seen then pyDigits cs acc false else none)
    else none

/-- Surrounding whitespace is ignored by Python `int`. -/
def pyStrip (cs : List Char) : List Char :=
  ((cs.dropWhile Char.isWhitespace).reverse.dropWhile Char.isWhitespace).reverse

/-- Python `int(s)`: optional sign, digits with single underscores between
them; `none` models the `ValueError`. -/
def pyInt (cs : List Char) : Option ℤ :=
  match pyStrip cs with
  | '-' :: rest => (pyDigits rest 0 false).map (fun n => -(n : ℤ))
  | '+' :: rest => (pyDigits rest 0 false).map (fun n => (n : ℤ))
  | other => (pyDigits other 0 false).map (fun n => (n : ℤ))

/-- `parse_file_name(filename)` : `(is_serial, size, num_threads, opt_lvl)`.
Marker positions are found exactly as in the script: `'S'` from the start,
`'_'` after it, `'T'` from the start, `'_'` after it, `'O'` from the start,
`'.'` after it; every `str.index` miss or failed `int` is a `ValueError`. -/
def parse_file_name (filename : String) : Except PyErr (Bool × ℤ × ℤ × ℤ) :=
  let cs := pyBasename filename.toList
  match charIndexFrom cs 'S' 0 with
  | none => .error .valueError
  | some sizeMark =>
    match charIndexFrom cs '_' (sizeMark + 1) with
    | none => .error .valueError
    | some sizeEnd =>
      match pyInt (pySlice cs (sizeMark + 1) sizeEnd) with
      | none => .error .valueError
      | some size =>
        match charIndexFrom cs 'T' 0 with
        | none => .error .valueError
        | some ntMark =>
          match charIndexFrom cs '_' (ntMark + 1) with
          | none => .error .valueError
          | some ntEnd =>
            match pyInt (pySlice cs (ntMark + 1) ntEnd) with
            | none => .error .valueError
            | some numThreads =>
              match charIndexFrom cs 'O' 0 with
              | none => .error .valueError
              | some olMark =>
                match charIndexFrom cs '.' (olMark + 1) with
                | none => .error .valueError
                | some olEnd =>
                  match pyInt (pySlice cs (olMark + 1) olEnd) with
                  | none => .error .valueError
                  | some optLvl =>
                    .ok (decide (numThreads = 0), size, numThreads, optLvl)

/-! ## Rows and tables -/

/-- One cell of a table row: Python mixes strings and numbers in row lists. -/
inductive Val where
  | str : String → Val
  | num : ℚ → Val
deriving DecidableEq

/-- A table row, as handed to `PrettyTable.add_rows`. -/
abbrev Row : Type := List Val

/-- The header of every emitted table. -/
def tableFields : List String :=
  ["Type", "Size", "Threads", "Opt Lvl", "Time Init", "Time Sort",
   "Time Total", "Speedup", "Efficiency"]

/-- `create_row(file, is_serial, size, num_threads, opt_lvl, means)`.
The means of the file are appended in dictionary order; Serial/Default rows
get `speedup = efficiency = 1` immediately.  A missing `means[file]` is a
`KeyError`. -/
def create_row (file : String) (isSerial : Bool) (size numThreads optLvl : ℤ)
    (means : Means) : Except PyErr Row :=
  match List.lookup file means with
  | none => .error .keyError
  | some fm =>
    let measureType :=
      if isSerial then (if optLvl = 0 then "Default" else "Serial") else "Parallel"
    let base := [Val.str measureType, Val.num (size : ℚ), Val.num (numThreads : ℚ),
                 Val.num (optLvl : ℚ)] ++ fm.map (fun kv => Val.num kv.2)
    .ok (if isSerial then base ++ [Val.num 1, Val.num 1] else base)

/-- The body of `make_table`'s inner `for file in curr_files` loop for one
file: parse the name, build the row, then either remember `time_serial`
(serial file) or compute speedup/efficiency from it (parallel file).
Reading `time_serial` when it was never assigned is the `NameError`;
a zero parallel time is the `ZeroDivisionError` of `time_serial / time_parallel`. -/
def processFile (means : Means) (timeSerial : Option ℚ) (file : String) :
    Except PyErr (Option ℚ × Row) :=
  match parse_file_name file with
  | .error e => .error e
  | .ok (isSerial, size, numThreads, optLvl) =>
    match create_row file isSerial size numThreads optLvl means with
    | .error e => .error e
    | .ok row =>
      match (List.lookup file means).bind (List.lookup "time_elapsed") with
      | none => .error .keyError
      | some elapsed =>
        if isSerial then
          .ok (some elapsed, row)
        else
          match timeSerial with
          | none => .error .nameError
          | some ts =>
            if elapsed = 0 then .error .zeroDivisionError
            else
              let speedup := my_round (ts / elapsed)
              let efficiency := my_round (speedup / (numThreads : ℚ))
              .ok (timeSerial, row ++ [Val.num speedup, Val.num efficiency])

/-- `make_table`'s inner loop over the (sorted) files of one subdirectory,
accumulating `rows`; any exception aborts the whole loop. -/
def processFiles (means : Means) (timeSerial : Option ℚ) (rows : List Row) :
    List String → Except PyErr (Option ℚ × List Row)
  | [] => .ok (timeSerial, rows)
  | f :: fs =>
    match processFile means timeSerial f with
    | .error e => .error e
    | .ok (ts', row) => processFiles means ts' (rows ++ [row]) fs

/-- The directories the script sees: the immediate subdirectories of the
root (`scandir`) and the `listdir` content of each. -/
structure FSys where
  subdirs : List String
  listing : List (String × List String)

/-- `os.listdir(d)` in the model. -/
def pyListdir (fsys : FSys) (d : String) : List String :=
  (List.lookup d fsys.listing).getD []

/-- The `opt_0` branch of `make_table`: take `listdir(subdir)[0]`
(`IndexError` if the directory is empty), parse it, and build the row that
will be cached as `first_row`. -/
def defaultRowOf (fsys : FSys) (means : Means) (d : String) : Except PyErr Row :=
  match pyListdir fsys d with
  | [] => .error .indexError
  | f :: _ =>
    match parse_file_name f with
    | .error e => .error e
    | .ok (isSerial, size, numThreads, optLvl) =>
      create_row (d ++ "/" ++ f) isSerial size numThreads optLvl means

/-- `make_table`'s loop over the sorted subdirectories.  `firstRow` and
`timeSerial` model the function-local Python variables `first_row` and
`time_serial`, which persist from one iteration to the next; `written`
collects the `(subdir, rows)` arguments passed to `write_table`.  An
uncaught exception stops the walk and is reported next to the tables
written so far. -/
def processSubdirs (fsys : FSys) (means : Means) (files : List String) :
    Option Row → Option ℚ → List (String × List Row) → List String →
    List (String × List Row) × Option PyErr
  | _, _, written, [] => (written, none)
  | firstRow, timeSerial, written, d :: ds =>
    if endsWithStr d "opt_0" then
      match defaultRowOf fsys means d with
      | .error e => (written, some e)
      | .ok row => processSubdirs fsys means files (some row) timeSerial written ds
    else
      match firstRow with
      | none => (written, some .nameError)
      | some frow =>
        let currFiles := pySorted (files.filter (fun f => containsStr f (d ++ "/")))
        match processFiles means timeSerial [frow] currFiles with
        | .error e => (written, some e)
        | .ok (ts', rows') =>
          processSubdirs fsys means files (some frow) ts' (written ++ [(d, rows')]) ds

/-- `make_table(root_dir, files, means)`: walk the sorted subdirectories and
return the tables written together with the exception, if one escaped. -/
def make_table (fsys : FSys) (files : List String) (means : Means) :
    List (String × List Row) × Option PyErr :=
  processSubdirs fsys means files none none [] (pySorted fsys.subdirs)

/-! ## `main` -/

/-- A file found by the `os.walk` loop qualifies if it ends in `.csv` and its
name does not contain `table`. -/
def qualifies (name : String) : Bool :=
  endsWithStr name ".csv" && !(containsStr name "table")

/-- What `main` does before the means/table phase. -/
inductive MainOutcome where
  | usageExit (messages : List String) (code : ℕ)
  | noFilesExit (message : String) (code : ℕ)
  | run (files : List String)
deriving DecidableEq

/-- `main()`: `argv` is the full argument vector (`argv[0]` is the program
name); `tree` lists, for every directory met by `os.walk`, the file names it
contains. -/
def pyMain (argv : List String) (tree : List (String × List String)) : MainOutcome :=
  if argv.length < 2 then
    .usageExit
      ["usage: python3 ./evaluate.py dir",
       "'dir' is the directory containing the output produced by measures.sh"] 1
  else
    let files := pySorted
      (tree.flatMap (fun rf => (rf.2.filter qualifies).map (fun f => rf.1 ++ "/" ++ f)))
    if files = [] then .noFilesExit "No output files found. Exiting the script." 1
    else .run files

/-- Well-formedness of a means dictionary: every per-file dictionary has
exactly the keys written by `calculate_means`, in their insertion order. -/
def meansWFB (means : Means) : Bool :=
  means.all (fun p => p.2.map Prod.fst == ["time_init", "time_sort", "time_elapsed"])

/-! ## Table machinery: row accessors and the baseline invariant -/

/-- The `Type` cell of row `i` of a table. -/
def typeAt (rows : List Row) (i : ℕ) : Option Val :=
  (rows[i]?).bind (fun r => r[0]?)

/-- The numeric cell `k` of row `i` of a table (columns are numbered from 0:
6 is `Time Total`, 7 is `Speedup`, 8 is `Efficiency`, 2 is `Threads`). -/
def qAt (rows : List Row) (i k : ℕ) : Option ℚ :=
  match (rows[i]?).bind (fun r => r[k]?) with
  | some (Val.num q) => some q
  | _ => none

/-- Rows that update the `time_serial` state of `make_table`: rows created
from a serial file, i.e. typed `Serial` or `Default`. -/
def updRow (r : Row) : Bool :=
  decide (r[0]? = some (Val.str "Serial")) || decide (r[0]? = some (Val.str "Default"))

/-- Number of rows of a table carrying a given type tag. -/
def countTy (rows : List Row) (ty : String) : ℕ :=
  rows.countP (fun r => decide (r[0]? = some (Val.str ty)))

/-- The speedup/efficiency contract of a table, ignoring the first `L`
(pre-existing) rows: any `Parallel` row that follows a `Serial` row with no
baseline-updating row strictly in between got its speedup from that `Serial`
row's elapsed time. -/
def rowsSpeedupOk (L : ℕ) (rows : List Row) : Prop :=
  ∀ i j t e n s ef, L ≤ i → i < j →
    typeAt rows i = some (Val.str "Serial") → qAt rows i 6 = some t →
    typeAt rows j = some (Val.str "Parallel") → qAt rows j 6 = some e →
    qAt rows j 2 = some n → qAt rows j 7 = some s → qAt rows j 8 = some ef →
    (∀ k rk, i < k → k < j → rows[k]? = some rk → updRow rk = false) →
    s = my_round (t / e) ∧ ef = my_round (s / n)

/-- The `time_serial` state agrees with the elapsed time of the last
baseline-updating row at index `≥ L`, when there is one. -/
def lastUpdOk (L : ℕ) (ts : Option ℚ) (rows : List Row) : Prop :=
  ∀ i ri, L ≤ i → rows[i]? = some ri → updRow ri = true →
    (∀ k rk, i < k → rows[k]? = some rk → updRow rk = false) →
    qAt rows i 6 = ts

/-! ## Provenance of written tables -/

/-- Shape of every row the builder ever appends under a well-formed means
dictionary: nine cells in header order, whose three middle numeric cells are
some file's means in their insertion order. -/
def goodRow (means : Means) (r : Row) : Prop :=
  ∃ (ty : String) (sz nt ol a b c s e : ℚ) (f : String),
    r = [Val.str ty, Val.num sz, Val.num nt, Val.num ol, Val.num a, Val.num b,
         Val.num c, Val.num s, Val.num e] ∧
    List.lookup f means = some [("time_init", a), ("time_sort", b), ("time_elapsed", c)]

/-- The check that an `opt_0` directory is well formed in the sense of the
data model: its first listed file (if any) decodes as a serial file with
optimization level 0, so that the cached `first_row` is a `Default` row. -/
def defaultDirOkB (fsys : FSys) (d : String) : Bool :=
  match (pyListdir fsys d).head? with
  | none => true
  | some f =>
    match parse_file_name f with
    | .ok (ser, _, _, ol) => ser && (ol == 0)
    | .error _ => true

/-- Where a written table comes from: an inner `processFiles` run seeded with
a single cached `Default` row. -/
def tableFromScenario (means : Means) (tbl : String × List Row) : Prop :=
  ∃ (fr : Row) (ts0 ts1 : Option ℚ) (fs : List String),
    fr[0]? = some (Val.str "Default") ∧ goodRow means fr ∧
    processFiles means ts0 [fr] fs = .ok (ts1, tbl.2)

/-! ## A concrete run (three subdirectories, one parallel-only scenario) -/

/-- Means dictionary of the concrete run: the `opt_1` scenario realizes the
specification's example (serial elapsed 10, parallel elapsed 3 on 4
threads); the `opt_2` scenario contains only a parallel file. -/
def exMeans : Means :=
  [("r/opt_0/S10_T0_O0.csv", [("time_init", 4), ("time_sort", 8), ("time_elapsed", 12)]),
   ("r/opt_1/S10_T0_O1.csv", [("time_init", 4), ("time_sort", 6), ("time_elapsed", 10)]),
   ("r/opt_1/S10_T4_O1.csv", [("time_init", 1), ("time_sort", 2), ("time_elapsed", 3)]),
   ("r/opt_2/S10_T8_O2.csv", [("time_init", 1), ("time_sort", 1), ("time_elapsed", 2)])]

/-- Directory layout of the concrete run. -/
def exFsys : FSys :=
  ⟨["r/opt_2", "r/opt_0", "r/opt_1"],
   [("r/opt_0", ["S10_T0_O0.csv"]),
    ("r/opt_1", ["S10_T0_O1.csv", "S10_T4_O1.csv"]),
    ("r/opt_2", ["S10_T8_O2.csv"])]⟩

/-- The walked file list of the concrete run. -/
def exFiles : List String :=
  ["r/opt_0/S10_T0_O0.csv", "r/opt_1/S10_T0_O1.csv",
   "r/opt_1/S10_T4_O1.csv", "r/opt_2/S10_T8_O2.csv"]

/-- The cached default row of the concrete run. -/
def exDefaultRow : Row :=
  [Val.str "Default", Val.num 10, Val.num 0, Val.num 0,
   Val.num 4, Val.num 8, Val.num 12, Val.num 1, Val.num 1]

/-- The serial row of scenario `opt_1`. -/
def exSerialRow1 : Row :=
  [Val.str "Serial", Val.num 10, Val.num 0, Val.num 1,
   Val.num 4, Val.num 6, Val.num 10, Val.num 1, Val.num 1]

/-- The parallel row of scenario `opt_1` (the specification's example:
baseline 10, elapsed 3, 4 threads). -/
def exParallelRow1 : Row :=
  [Val.str "Parallel", Val.num 10, Val.num 4, Val.num 1,
   Val.num 1, Val.num 2, Val.num 3,
   Val.num (my_round (10 / 3)), Val.num (my_round (my_round (10 / 3) / 4))]

/-- The parallel row of scenario `opt_2`: its baseline is the *stale*
`time_serial = 10` left over from scenario `opt_1`. -/
def exParallelRow2 : Row :=
  [Val.str "Parallel", Val.num 10, Val.num 8, Val.num 2,
   Val.num 1, Val.num 1, Val.num 2,
   Val.num (my_round (10 / 2)), Val.num (my_round (my_round (10 / 2) / 8))]

/-- Means dictionary for the malformed-name run. -/
def exMeans2 : Means :=
  [("q/opt_0/S10_T0_O0.csv", [("time_init", 1), ("time_sort", 1), ("time_elapsed", 2)]),
   ("q/opt_1/S10_T0_O1.csv", [("time_init", 4), ("time_sort", 4), ("time_elapsed", 8)]),
   ("q/opt_1/foo.csv", [("time_init", 1), ("time_sort", 1), ("time_elapsed", 2)]),
   ("q/opt_2/S10_T0_O2.csv", [("time_init", 2), ("time_sort", 2), ("time_elapsed", 4)])]

/-- Directory layout for the malformed-name run: `foo.csv` sits in scenario
`q/opt_1`; scenario `q/opt_2` is perfectly well formed. -/
def exFsys2 : FSys :=
  ⟨["q/opt_0", "q/opt_1", "q/opt_2"],
   [("q/opt_0", ["S10_T0_O0.csv"]),
    ("q/opt_1", ["S10_T0_O1.csv", "foo.csv"]),
    ("q/opt_2", ["S10_T0_O2.csv"])]⟩

/-- Walked files of the malformed-name run. -/
def exFiles2 : List String :=
  ["q/opt_0/S10_T0_O0.csv", "q/opt_1/S10_T0_O1.csv",
   "q/opt_1/foo.csv", "q/opt_2/S10_T0_O2.csv"]

/-! ## Basic lemmas about the model -/

/-- Evaluate `my_round` when the scaled value is within `[n, n + 1/2)`. -/
lemma my_round_eq_of_le_of_lt (x : ℚ) (n : ℤ)
    (h1 : (n : ℚ) ≤ x * 100000) (h2 : x * 100000 - (n : ℚ) < 1/2) :
    my_round x = (n : ℚ) / 100000 := by
  have hf : ⌊x * 100000⌋ = n := by
    rw [Int.floor_eq_iff]
    exact ⟨h1, by linarith⟩
  simp only [my_round, halfEven, hf]
  rw [if_pos h2]

lemma my_round_zero : my_round 0 = 0 := by
  rw [my_round_eq_of_le_of_lt 0 0 (by norm_num) (by norm_num)]
  norm_num

lemma lookup_mem {α β : Type} [BEq α] [LawfulBEq α] {l : List (α × β)} {a : α} {b : β}
    (h : List.lookup a l = some b) : (a, b) ∈ l := by
  induction l with
  | nil => simp [List.lookup] at h
  | cons p l ih =>
    obtain ⟨k, v⟩ := p
    rw [List.lookup] at h
    by_cases hk : a = k
    · subst hk
      simp at h
      subst h
      exact List.mem_cons_self _ _
    · have : (a == k) = false := beq_false_of_ne hk
      rw [this] at h
      exact List.mem_cons_of_mem _ (ih h)

lemma keys_triple {l : List (String × ℚ)}
    (h : l.map Prod.fst = ["time_init", "time_sort", "time_elapsed"]) :
    ∃ a b c, l = [("time_init", a), ("time_sort", b), ("time_elapsed", c)] := by
  match l with
  | [] => simp at h
  | [_] => simp at h
  | [_, _] => simp at h
  | (k1, a) :: (k2, b) :: (k3, c) :: rest =>
    simp only [List.map, List.cons.injEq] at h
    obtain ⟨h1, h2, h3, h4⟩ := h
    have : rest = [] := by
      cases rest with
      | nil => rfl
      | cons _ _ => simp at h4
    subst this h1 h2 h3
    exact ⟨a, b, c, rfl⟩

lemma meansWF_lookup {means : Means} (hwf : meansWFB means = true) {f : String}
    {fm : List (String × ℚ)} (h : List.lookup f means = some fm) :
    ∃ a b c, fm = [("time_init", a), ("time_sort", b), ("time_elapsed", c)] := by
  have hm := lookup_mem h
  have hall := List.all_eq_true.mp hwf _ hm
  exact keys_triple (by simpa using hall)

/-! ## Claim C6: a single-sample column yields 0 -/

lemma fitMean_single (x : ℚ) : fitMean [x] = x := by
  simp [fitMean]

lemma fitVar_single (x : ℚ) : fitVar [x] = 0 := by
  simp [fitVar, fitMean_single]

lemma keptSamples_single (x : ℚ) : keptSamples [x] = [] := by
  simp [keptSamples, fitMean_single, fitVar_single]

/-- C6: for a column consisting of a single sample, the fitted standard
deviation is zero, the open retention interval keeps nothing, and the robust
mean estimator of `calculate_means` returns exactly `0.0`. -/
theorem c6_single_sample (x : ℚ) :
    fitVar [x] = 0 ∧ keptSamples [x] = [] ∧ columnMean [x] = 0 := by
  refine ⟨fitVar_single x, keptSamples_single x, ?_⟩
  simp [columnMean, keptSamples_single, my_round_zero]

/-! ## Claim C4: `time_elapsed` is the rounded sum of the two column means -/

/-- C4: in every per-file summary produced by `calculate_means`, the
`time_elapsed` entry is `my_round` of the sum of the `time_init` and
`time_sort` entries — never an independently fitted value. -/
theorem c4_elapsed_sum (data : List (String × (List ℚ × List ℚ))) (f : String)
    (fm : List (String × ℚ)) (hmem : (f, fm) ∈ calculate_means data) :
    ∃ a b, List.lookup "time_init" fm = some a ∧
      List.lookup "time_sort" fm = some b ∧
      List.lookup "time_elapsed" fm = some (my_round (a + b)) := by
  unfold calculate_means at hmem
  rw [List.mem_map] at hmem
  obtain ⟨d, _, heq⟩ := hmem
  cases heq
  exact ⟨columnMean d.2.1, columnMean d.2.2, rfl, rfl, rfl⟩

/-- Witness for C4 at concrete sample data. -/
theorem c4_elapsed_sum_witness :
    (("f.csv", fileMeans [1, 2] [3, 4]) ∈ calculate_means [("f.csv", ([1, 2], [3, 4]))]) ∧
    (∃ a b, List.lookup "time_init" (fileMeans [1, 2] [3, 4]) = some a ∧
      List.lookup "time_sort" (fileMeans [1, 2] [3, 4]) = some b ∧
      List.lookup "time_elapsed" (fileMeans [1, 2] [3, 4]) = some (my_round (a + b))) :=
  have hm : ("f.csv", fileMeans [1, 2] [3, 4]) ∈
      calculate_means [("f.csv", ([1, 2], [3, 4]))] := List.mem_singleton.mpr rfl
  ⟨hm, c4_elapsed_sum _ _ _ hm⟩

/-! ## Claim C2: the robust mean estimator -/

lemma sq_lt_iff_interval (a v : ℝ) (μ : ℝ) :
    ((a - μ) ^ 2 < v) ↔ (μ - Real.sqrt v < a ∧ a < μ + Real.sqrt v) := by
  have h1 : |a - μ| < Real.sqrt v ↔ (a - μ) ^ 2 < v := by
    rw [Real.lt_sqrt (abs_nonneg _), sq_abs]
  rw [← h1, abs_lt]
  constructor
  · rintro ⟨hl, hr⟩
    exact ⟨by linarith, by linarith⟩
  · rintro ⟨hl, hr⟩
    exact ⟨by linarith, by linarith⟩

/-- C2: for a non-empty column, the estimator keeps exactly the samples
strictly inside the open interval `(μ₀ - σ₀, μ₀ + σ₀)` around the fitted
mean `μ₀ = fitMean xs` with fitted standard deviation
`σ₀ = √(fitVar xs)`; it returns `0` when nothing is kept and otherwise
`my_round` (exact decimal rounding to 5 digits) of the refitted mean of the
kept subsample. -/
theorem c2_robust_mean (xs : List ℚ) (hne : xs ≠ []) :
    (∀ x : ℚ, x ∈ keptSamples xs ↔
        (x ∈ xs ∧ (fitMean xs : ℝ) - Real.sqrt (fitVar xs) < (x : ℝ) ∧
          (x : ℝ) < (fitMean xs : ℝ) + Real.sqrt (fitVar xs))) ∧
    (keptSamples xs = [] → columnMean xs = 0) ∧
    (keptSamples xs ≠ [] → columnMean xs = my_round (fitMean (keptSamples xs))) := by
  refine ⟨?_, ?_, ?_⟩
  · intro x
    rw [keptSamples, List.mem_filter, decide_eq_true_eq]
    have hcast : ((x - fitMean xs) ^ 2 < fitVar xs) ↔
        (((x : ℝ) - (fitMean xs : ℝ)) ^ 2 < ((fitVar xs : ℚ) : ℝ)) := by
      rw [show (((x : ℝ) - (fitMean xs : ℝ)) ^ 2) = (((x - fitMean xs) ^ 2 : ℚ) : ℝ) by
        push_cast; ring]
      exact (@Rat.cast_lt _ _ ℝ _).symm
    rw [hcast, sq_lt_iff_interval]
  · intro hk
    simp [columnMean, hk, my_round_zero]
  · intro hk
    simp [columnMean, hk]

/-- Witness for C2 at the concrete column `[1, 2, 3]`. -/
theorem c2_robust_mean_witness :
    (([1, 2, 3] : List ℚ) ≠ []) ∧
    ((∀ x : ℚ, x ∈ keptSamples [1, 2, 3] ↔
        (x ∈ ([1, 2, 3] : List ℚ) ∧
          (fitMean [1, 2, 3] : ℝ) - Real.sqrt (fitVar [1, 2, 3]) < (x : ℝ) ∧
          (x : ℝ) < (fitMean [1, 2, 3] : ℝ) + Real.sqrt (fitVar [1, 2, 3]))) ∧
      (keptSamples [1, 2, 3] = [] → columnMean [1, 2, 3] = 0) ∧
      (keptSamples [1, 2, 3] ≠ [] → columnMean [1, 2, 3] =
        my_round (fitMean (keptSamples [1, 2, 3])))) :=
  ⟨by simp, c2_robust_mean [1, 2, 3] (by simp)⟩

/-! ## Claim C8: row typing -/

lemma parse_file_name_isSerial {f : String} {ser : Bool} {sz nt ol : ℤ}
    (h : parse_file_name f = .ok (ser, sz, nt, ol)) : ser = decide (nt = 0) := by
  simp only [parse_file_name] at h
  repeat' split at h
  all_goals (cases h; try rfl)

lemma create_row_shape {file : String} {isSer : Bool} {sz nt ol : ℤ} {means : Means}
    {row : Row} (h : create_row file isSer sz nt ol means = .ok row) :
    ∃ fm, List.lookup file means = some fm ∧
      row = (if isSer then
              [Val.str (if ol = 0 then "Default" else "Serial"), Val.num (sz : ℚ),
                Val.num (nt : ℚ), Val.num (ol : ℚ)]
                ++ fm.map (fun kv => Val.num kv.2) ++ [Val.num 1, Val.num 1]
             else
              [Val.str "Parallel", Val.num (sz : ℚ), Val.num (nt : ℚ), Val.num (ol : ℚ)]
                ++ fm.map (fun kv => Val.num kv.2)) := by
  unfold create_row at h
  split at h
  next => exact absurd h (by simp)
  next fm hfm =>
    refine ⟨fm, hfm, ?_⟩
    cases isSer <;> simp_all

/-- C8: `parse_file_name` reports a file as serial exactly when its thread
count is `0`, and `create_row` types a row `Default` iff it is serial with
optimization level 0, `Serial` iff serial with positive optimization level,
`Parallel` otherwise; every `Default` or `Serial` row ends with
`speedup = efficiency = 1`. -/
theorem c8_row_type :
    (∀ (f : String) (ser : Bool) (sz nt ol : ℤ),
        parse_file_name f = .ok (ser, sz, nt, ol) → (ser = true ↔ nt = 0)) ∧
    (∀ (file : String) (ser : Bool) (sz nt ol : ℤ) (means : Means) (row : Row),
        create_row file ser sz nt ol means = .ok row →
        ((row[0]? = some (Val.str "Default") ↔ (ser = true ∧ ol = 0)) ∧
         (row[0]? = some (Val.str "Serial") ↔ (ser = true ∧ ol ≠ 0)) ∧
         (row[0]? = some (Val.str "Parallel") ↔ ser = false) ∧
         ((row[0]? = some (Val.str "Default") ∨ row[0]? = some (Val.str "Serial")) →
           ∃ pre, row = pre ++ [Val.num 1, Val.num 1]))) := by
  constructor
  · intro f ser sz nt ol h
    have := parse_file_name_isSerial h
    subst this
    simp
  · intro file ser sz nt ol means row h
    obtain ⟨fm, -, hrow⟩ := create_row_shape h
    subst hrow
    cases ser
    · refine ⟨by simp, by simp, by simp, ?_⟩
      intro hd
      simp at hd
    · by_cases hol : ol = 0
      · subst hol
        refine ⟨by simp, by simp, by simp, ?_⟩
        intro _
        exact ⟨_, rfl⟩
      · refine ⟨by simp [hol], by simp [hol], by simp [hol], ?_⟩
        intro _
        exact ⟨_, rfl⟩

/-- Witness for C8: the serial default file name and a concrete row. -/
theorem c8_row_type_witness :
    (parse_file_name "S1000_T0_O0.csv" = .ok (true, 1000, 0, 0) →
      (true = true ↔ (0 : ℤ) = 0)) ∧
    (create_row "S1000_T0_O0.csv" true 1000 0 0 [("S1000_T0_O0.csv", [("time_init", 1)])]
        = .ok [Val.str "Default", Val.num 1000, Val.num 0, Val.num 0, Val.num 1,
               Val.num 1, Val.num 1] →
      (([Val.str "Default", Val.num 1000, Val.num 0, Val.num 0, Val.num 1,
         Val.num 1, Val.num 1] : Row)[0]? = some (Val.str "Default") ↔
        (true = true ∧ (0 : ℤ) = 0))) :=
  ⟨fun h => c8_row_type.1 "S1000_T0_O0.csv" true 1000 0 0 h,
   fun h => (c8_row_type.2 "S1000_T0_O0.csv" true 1000 0 0 _ _ h).1⟩

/-! ## Claim C9: CLI behavior of `main` -/

lemma flatMap_eq_nil_of {α β : Type} (l : List α) (g : α → List β)
    (h : ∀ x ∈ l, g x = []) : l.flatMap g = [] := by
  induction l with
  | nil => rfl
  | cons a l ih =>
    simp only [List.flatMap_cons, h a (List.mem_cons_self a l), List.nil_append]
    exact ih (fun x hx => h x (List.mem_cons_of_mem a hx))

/-- C9: without the positional directory argument `main` prints the usage
message and exits with code 1, and when the walk finds no qualifying file
(ending in `.csv` with a name not containing `table`) it exits with code 1. -/
theorem c9_cli :
    (∀ (argv : List String) (tree : List (String × List String)),
        argv.length < 2 →
        pyMain argv tree = .usageExit
          ["usage: python3 ./evaluate.py dir",
           "'dir' is the directory containing the output produced by measures.sh"] 1) ∧
    (∀ (argv : List String) (tree : List (String × List String)),
        2 ≤ argv.length →
        (∀ rf ∈ tree, ∀ f ∈ rf.2,
          endsWithStr f ".csv" = false ∨ containsStr f "table" = true) →
        pyMain argv tree = .noFilesExit "No output files found. Exiting the script." 1) := by
  constructor
  · intro argv tree h
    rw [pyMain, if_pos h]
  · intro argv tree hlen hnone
    rw [pyMain, if_neg (by omega)]
    have hflat : tree.flatMap
        (fun rf => (rf.2.filter qualifies).map (fun f => rf.1 ++ "/" ++ f)) = [] := by
      apply flatMap_eq_nil_of
      intro rf hrf
      have : rf.2.filter qualifies = [] := by
        rw [List.filter_eq_nil_iff]
        intro f hf
        rcases hnone rf hrf f hf with hcsv | htab
        · simp [qualifies, hcsv]
        · simp [qualifies, htab]
      rw [this, List.map_nil]
    rw [hflat]
    rfl

/-- Witness for C9: empty argument vector, and a tree with no qualifying
file. -/
theorem c9_cli_witness :
    (([] : List String).length < 2 ∧
      pyMain [] [("d", ["a.csv"])] = .usageExit
        ["usage: python3 ./evaluate.py dir",
         "'dir' is the directory containing the output produced by measures.sh"] 1) ∧
    (2 ≤ (["evaluate.py", "d"] : List String).length ∧
      (∀ rf ∈ [("d", ["notes.txt", "table.csv"])], ∀ f ∈ rf.2,
        endsWithStr f ".csv" = false ∨ containsStr f "table" = true) ∧
      pyMain ["evaluate.py", "d"] [("d", ["notes.txt", "table.csv"])] =
        .noFilesExit "No output files found. Exiting the script." 1) :=
  ⟨⟨by decide, c9_cli.1 [] [("d", ["a.csv"])] (by decide)⟩,
   ⟨by decide, by decide,
    c9_cli.2 ["evaluate.py", "d"] [("d", ["notes.txt", "table.csv"])] (by decide) (by decide)⟩⟩

lemma typeAt_append_lt {rows : List Row} {r : Row} {i : ℕ} (h : i < rows.length) :
    typeAt (rows ++ [r]) i = typeAt rows i := by
  unfold typeAt
  rw [List.getElem?_append_left h]

lemma typeAt_append_self {rows : List Row} {r : Row} :
    typeAt (rows ++ [r]) rows.length = r[0]? := by
  unfold typeAt
  rw [List.getElem?_concat_length]
  rfl

lemma qAt_append_lt {rows : List Row} {r : Row} {i k : ℕ} (h : i < rows.length) :
    qAt (rows ++ [r]) i k = qAt rows i k := by
  unfold qAt
  rw [List.getElem?_append_left h]

lemma qAt_append_self {rows : List Row} {r : Row} {k : ℕ} {q : ℚ}
    (h : r[k]? = some (Val.num q)) : qAt (rows ++ [r]) rows.length k = some q := by
  unfold qAt
  rw [List.getElem?_concat_length]
  simp [h]

lemma lt_succ_of_getElem?_append {rows : List Row} {r x : Row} {j : ℕ}
    (h : (rows ++ [r])[j]? = some x) : j < rows.length + 1 := by
  have hj := List.getElem?_eq_some.mp h
  obtain ⟨hlt, -⟩ := hj
  simpa using hlt

lemma typeAt_some {rows : List Row} {i : ℕ} {v : Val} (h : typeAt rows i = some v) :
    ∃ ri, rows[i]? = some ri ∧ ri[0]? = some v := by
  unfold typeAt at h
  cases hr : rows[i]? with
  | none => rw [hr] at h; simp at h
  | some ri => rw [hr] at h; exact ⟨ri, rfl, by simpa using h⟩

lemma typeAt_lt_length {rows : List Row} {i : ℕ} {v : Val} (h : typeAt rows i = some v) :
    i < rows.length := by
  obtain ⟨ri, hri, -⟩ := typeAt_some h
  obtain ⟨hlt, -⟩ := List.getElem?_eq_some.mp hri
  exact hlt

lemma rowsSpeedupOk_append_nonparallel {L : ℕ} {rows : List Row} {row : Row}
    (hn : row[0]? ≠ some (Val.str "Parallel")) (h1 : rowsSpeedupOk L rows) :
    rowsSpeedupOk L (rows ++ [row]) := by
  intro i j t e n s ef hLi hij hti hqi htj hqj hqn hs7 hs8 hbet
  have hj' := typeAt_lt_length htj
  by_cases hj : j < rows.length
  · have hi : i < rows.length := lt_trans hij hj
    rw [typeAt_append_lt hi] at hti
    rw [qAt_append_lt hi] at hqi
    rw [typeAt_append_lt hj] at htj
    rw [qAt_append_lt hj] at hqj hqn hs7 hs8
    refine h1 i j t e n s ef hLi hij hti hqi htj hqj hqn hs7 hs8 ?_
    intro k rk hik hkj hk
    have hklen : k < rows.length := lt_trans hkj hj
    exact hbet k rk hik hkj (by rw [List.getElem?_append_left hklen]; exact hk)
  · have hjeq : j = rows.length := by
      simp only [List.length_append, List.length_singleton] at hj'
      omega
    subst hjeq
    rw [typeAt_append_self] at htj
    exact absurd htj hn

lemma inv_step_serial {L : ℕ} {rows : List Row} {row : Row} {c : ℚ}
    (hn : row[0]? ≠ some (Val.str "Parallel")) (hupd : updRow row = true)
    (h6 : row[6]? = some (Val.num c)) (h1 : rowsSpeedupOk L rows) :
    rowsSpeedupOk L (rows ++ [row]) ∧ lastUpdOk L (some c) (rows ++ [row]) := by
  refine ⟨rowsSpeedupOk_append_nonparallel hn h1, ?_⟩
  intro i ri hLi hri hupdi hafter
  have hi' := lt_succ_of_getElem?_append hri
  by_cases hi : i < rows.length
  · exfalso
    have hfalse := hafter rows.length row hi (List.getElem?_concat_length rows row)
    rw [hfalse] at hupd
    exact Bool.false_ne_true hupd
  · have hieq : i = rows.length := by omega
    subst hieq
    exact qAt_append_self h6

lemma inv_step_parallel {L : ℕ} {rows : List Row} {row : Row} {t e n : ℚ}
    (h0 : row[0]? = some (Val.str "Parallel"))
    (h6 : row[6]? = some (Val.num e)) (h2c : row[2]? = some (Val.num n))
    (h7 : row[7]? = some (Val.num (my_round (t / e))))
    (h8 : row[8]? = some (Val.num (my_round (my_round (t / e) / n))))
    (h1 : rowsSpeedupOk L rows) (h2 : lastUpdOk L (some t) rows) :
    rowsSpeedupOk L (rows ++ [row]) ∧ lastUpdOk L (some t) (rows ++ [row]) := by
  constructor
  · intro i j t' e' n' s' ef' hLi hij hti hqi htj hqj hqn hs7 hs8 hbet
    have hj' := typeAt_lt_length htj
    by_cases hj : j < rows.length
    · have hi : i < rows.length := lt_trans hij hj
      rw [typeAt_append_lt hi] at hti
      rw [qAt_append_lt hi] at hqi
      rw [typeAt_append_lt hj] at htj
      rw [qAt_append_lt hj] at hqj hqn hs7 hs8
      refine h1 i j t' e' n' s' ef' hLi hij hti hqi htj hqj hqn hs7 hs8 ?_
      intro k rk hik hkj hk
      have hklen : k < rows.length := lt_trans hkj hj
      exact hbet k rk hik hkj (by rw [List.getElem?_append_left hklen]; exact hk)
    · have hjeq : j = rows.length := by
        simp only [List.length_append, List.length_singleton] at hj'
        omega
      subst hjeq
      have hi : i < rows.length := hij
      rw [typeAt_append_lt hi] at hti
      rw [qAt_append_lt hi] at hqi
      rw [qAt_append_self h6] at hqj
      rw [qAt_append_self h2c] at hqn
      rw [qAt_append_self h7] at hs7
      rw [qAt_append_self h8] at hs8
      injection hqj with hqj
      injection hqn with hqn
      injection hs7 with hs7
      injection hs8 with hs8
      have hnone : ∀ k rk, i < k → rows[k]? = some rk → updRow rk = false := by
        intro k rk hik hk
        have hklen := (List.getElem?_eq_some.mp hk).1
        exact hbet k rk hik hklen (by rw [List.getElem?_append_left hklen]; exact hk)
      obtain ⟨ri, hri, hri0⟩ := typeAt_some hti
      have hupd_i : updRow ri = true := by simp [updRow, hri0]
      have hts := h2 i ri hLi hri hupd_i hnone
      rw [hqi] at hts
      injection hts with hts
      subst hts hqj hqn
      exact ⟨hs7.symm, by rw [← hs8, ← hs7]⟩
  · intro i ri hLi hri hupdi hafter
    have hi' := lt_succ_of_getElem?_append hri
    by_cases hi : i < rows.length
    · rw [List.getElem?_append_left hi] at hri
      have hafter' : ∀ k rk, i < k → rows[k]? = some rk → updRow rk = false := by
        intro k rk hik hk
        have hklen := (List.getElem?_eq_some.mp hk).1
        exact hafter k rk hik (by rw [List.getElem?_append_left hklen]; exact hk)
      rw [qAt_append_lt hi]
      exact h2 i ri hLi hri hupdi hafter'
    · have hieq : i = rows.length := by omega
      subst hieq
      rw [List.getElem?_concat_length] at hri
      injection hri with hri
      subst hri
      exact absurd hupdi (by simp [updRow, h0])

/-- Complete characterization of a successful `processFile` step under a
well-formed means dictionary: either a serial file, which stamps
`speedup = efficiency = 1` and updates `time_serial` to its elapsed mean, or
a parallel file, which needs a bound `time_serial = some t` and a non-zero
elapsed time and appends `my_round(t / elapsed)` and
`my_round(speedup / threads)`. -/
lemma processFile_ok {means : Means} (hwf : meansWFB means = true) {ts : Option ℚ}
    {f : String} {ts' : Option ℚ} {row : Row}
    (h : processFile means ts f = .ok (ts', row)) :
    ∃ (ser : Bool) (sz nt ol : ℤ) (a b c : ℚ),
      parse_file_name f = .ok (ser, sz, nt, ol) ∧
      List.lookup f means = some [("time_init", a), ("time_sort", b), ("time_elapsed", c)] ∧
      ((ser = true ∧ ts' = some c ∧
        row = [Val.str (if ol = 0 then "Default" else "Serial"), Val.num (sz : ℚ),
               Val.num (nt : ℚ), Val.num (ol : ℚ), Val.num a, Val.num b, Val.num c,
               Val.num 1, Val.num 1]) ∨
       (ser = false ∧ ts' = ts ∧ c ≠ 0 ∧
        ∃ t, ts = some t ∧
          row = [Val.str "Parallel", Val.num (sz : ℚ), Val.num (nt : ℚ), Val.num (ol : ℚ),
                 Val.num a, Val.num b, Val.num c,
                 Val.num (my_round (t / c)),
                 Val.num (my_round (my_round (t / c) / (nt : ℚ)))])) := by
  unfold processFile at h
  cases hp : parse_file_name f with
  | error e => rw [hp] at h; exact absurd h (by simp)
  | ok q =>
    obtain ⟨ser, sz, nt, ol⟩ := q
    rw [hp] at h
    dsimp only at h
    cases hc : create_row f ser sz nt ol means with
    | error e => rw [hc] at h; exact absurd h (by simp)
    | ok row0 =>
      rw [hc] at h
      obtain ⟨fm, hlk, hshape⟩ := create_row_shape hc
      obtain ⟨a, b, c, hfm⟩ := meansWF_lookup hwf hlk
      subst hfm
      rw [hlk] at h
      have hte : List.lookup "time_elapsed"
          [("time_init", a), ("time_sort", b), ("time_elapsed", c)] = some c := rfl
      simp only [Option.some_bind, hte] at h
      refine ⟨ser, sz, nt, ol, a, b, c, rfl, hlk, ?_⟩
      cases ser
      · -- parallel file
        simp only [Bool.false_eq_true, if_false] at h
        cases hts : ts with
        | none => rw [hts] at h; exact absurd h (by simp)
        | some t =>
          rw [hts] at h
          dsimp only at h
          by_cases hc0 : c = 0
          · rw [if_pos hc0] at h
            exact absurd h (by simp)
          · rw [if_neg hc0] at h
            simp only [Except.ok.injEq, Prod.mk.injEq] at h
            obtain ⟨hts', hrow⟩ := h
            refine Or.inr ⟨rfl, hts'.symm, hc0, t, rfl, ?_⟩
            rw [← hrow]
            simp only [hshape, Bool.false_eq_true, if_false, List.map_cons, List.map_nil]
            rfl
      · -- serial file
        simp only [if_true] at h
        simp only [Except.ok.injEq, Prod.mk.injEq] at h
        obtain ⟨hts', hrow⟩ := h
        refine Or.inl ⟨rfl, hts'.symm, ?_⟩
        rw [← hrow]
        simp only [hshape, if_true, List.map_cons, List.map_nil]
        rfl

lemma processFiles_append {means : Means} :
    ∀ (fs : List String) (ts : Option ℚ) (rows : List Row) (ts' : Option ℚ)
      (rows' : List Row),
      processFiles means ts rows fs = .ok (ts', rows') → ∃ tail, rows' = rows ++ tail := by
  intro fs
  induction fs with
  | nil =>
    intro ts rows ts' rows' h
    simp only [processFiles, Except.ok.injEq, Prod.mk.injEq] at h
    exact ⟨[], by simp [h.2]⟩
  | cons f fs ih =>
    intro ts rows ts' rows' h
    unfold processFiles at h
    cases hpf : processFile means ts f with
    | error e => rw [hpf] at h; exact absurd h (by simp)
    | ok p =>
      obtain ⟨ts1, row⟩ := p
      rw [hpf] at h
      dsimp only at h
      obtain ⟨tail, htail⟩ := ih _ _ _ _ h
      exact ⟨row :: tail, by simp [htail]⟩

/-- The speedup/efficiency invariant survives a whole `processFiles` run. -/
lemma processFiles_inv {means : Means} (hwf : meansWFB means = true) (L : ℕ) :
    ∀ (fs : List String) (ts : Option ℚ) (rows : List Row) (ts' : Option ℚ)
      (rows' : List Row),
      processFiles means ts rows fs = .ok (ts', rows') →
      rowsSpeedupOk L rows → lastUpdOk L ts rows →
      rowsSpeedupOk L rows' ∧ lastUpdOk L ts' rows' := by
  intro fs
  induction fs with
  | nil =>
    intro ts rows ts' rows' h h1 h2
    simp only [processFiles, Except.ok.injEq, Prod.mk.injEq] at h
    obtain ⟨ha, hb⟩ := h
    subst ha
    subst hb
    exact ⟨h1, h2⟩
  | cons f fs ih =>
    intro ts rows ts' rows' h h1 h2
    unfold processFiles at h
    cases hpf : processFile means ts f with
    | error e => rw [hpf] at h; exact absurd h (by simp)
    | ok p =>
      obtain ⟨ts1, row⟩ := p
      rw [hpf] at h
      dsimp only at h
      obtain ⟨ser, sz, nt, ol, a, b, c, hp, hlk, hcases⟩ := processFile_ok hwf hpf
      rcases hcases with ⟨-, hts1, hrow⟩ | ⟨-, hts1, hc0, t, hts, hrow⟩
      · have h0 : row[0]? = some (Val.str (if ol = 0 then "Default" else "Serial")) := by
          rw [hrow]; rfl
        have hn : row[0]? ≠ some (Val.str "Parallel") := by
          rw [h0]
          by_cases hol : ol = 0 <;> simp [hol]
        have hupd : updRow row = true := by
          by_cases hol : ol = 0 <;> simp [updRow, h0, hol]
        have h6 : row[6]? = some (Val.num c) := by rw [hrow]; rfl
        subst hts1
        have step := inv_step_serial hn hupd h6 h1
        exact ih _ _ _ _ h step.1 step.2
      · subst hts1
        subst hts
        have h0 : row[0]? = some (Val.str "Parallel") := by rw [hrow]; rfl
        have h6 : row[6]? = some (Val.num c) := by rw [hrow]; rfl
        have h2c : row[2]? = some (Val.num (nt : ℚ)) := by rw [hrow]; rfl
        have h7 : row[7]? = some (Val.num (my_round (t / c))) := by rw [hrow]; rfl
        have h8 : row[8]? = some (Val.num (my_round (my_round (t / c) / (nt : ℚ)))) := by
          rw [hrow]; rfl
        have step := inv_step_parallel h0 h6 h2c h7 h8 h1 h2
        exact ih _ _ _ _ h step.1 step.2

lemma processFiles_good {means : Means} (hwf : meansWFB means = true) :
    ∀ (fs : List String) (ts : Option ℚ) (rows : List Row) (ts' : Option ℚ)
      (rows' : List Row),
      processFiles means ts rows fs = .ok (ts', rows') →
      (∀ r ∈ rows, goodRow means r) → ∀ r ∈ rows', goodRow means r := by
  intro fs
  induction fs with
  | nil =>
    intro ts rows ts' rows' h hg
    simp only [processFiles, Except.ok.injEq, Prod.mk.injEq] at h
    rw [← h.2]
    exact hg
  | cons f fs ih =>
    intro ts rows ts' rows' h hg
    unfold processFiles at h
    cases hpf : processFile means ts f with
    | error e => rw [hpf] at h; exact absurd h (by simp)
    | ok p =>
      obtain ⟨ts1, row⟩ := p
      rw [hpf] at h
      dsimp only at h
      refine ih _ _ _ _ h ?_
      intro r hr
      rcases List.mem_append.mp hr with hr | hr
      · exact hg r hr
      · rw [List.mem_singleton.mp hr]
        obtain ⟨ser, sz, nt, ol, a, b, c, hp, hlk, hcases⟩ := processFile_ok hwf hpf
        rcases hcases with ⟨-, -, hrow⟩ | ⟨-, -, -, t, -, hrow⟩
        · exact ⟨_, _, _, _, _, _, _, _, _, f, hrow, hlk⟩
        · exact ⟨_, _, _, _, _, _, _, _, _, f, hrow, hlk⟩

lemma defaultRowOf_ok {fsys : FSys} {means : Means} {d : String} {row : Row}
    (hwf : meansWFB means = true) (hdd : defaultDirOkB fsys d = true)
    (h : defaultRowOf fsys means d = .ok row) :
    row[0]? = some (Val.str "Default") ∧ goodRow means row := by
  unfold defaultRowOf at h
  cases hls : pyListdir fsys d with
  | nil => rw [hls] at h; exact absurd h (by simp)
  | cons f rest =>
    rw [hls] at h
    dsimp only at h
    cases hp : parse_file_name f with
    | error e => rw [hp] at h; exact absurd h (by simp)
    | ok q =>
      obtain ⟨ser, sz, nt, ol⟩ := q
      rw [hp] at h
      dsimp only at h
      unfold defaultDirOkB at hdd
      rw [hls] at hdd
      simp only [List.head?_cons, hp] at hdd
      obtain ⟨hser, hol'⟩ : ser = true ∧ ol = 0 := by simpa using hdd
      subst hser hol'
      obtain ⟨fm, hlk, hshape⟩ := create_row_shape h
      obtain ⟨a, b, c, hfm⟩ := meansWF_lookup hwf hlk
      subst hfm
      have hshape' : row = [Val.str "Default", Val.num (sz : ℚ), Val.num (nt : ℚ),
          Val.num ((0 : ℤ) : ℚ), Val.num a, Val.num b, Val.num c, Val.num 1, Val.num 1] := by
        rw [hshape]
        simp
      constructor
      · rw [hshape']; rfl
      · exact ⟨"Default", sz, nt, ((0 : ℤ) : ℚ), a, b, c, 1, 1, d ++ "/" ++ f, hshape', hlk⟩

/-- One step of the directory walk, as a rewriting equation. -/
lemma processSubdirs_cons (fsys : FSys) (means : Means) (files : List String)
    (frS : Option Row) (tsS : Option ℚ) (w : List (String × List Row))
    (d : String) (ds : List String) :
    processSubdirs fsys means files frS tsS w (d :: ds) =
      if endsWithStr d "opt_0" then
        match defaultRowOf fsys means d with
        | .error e => (w, some e)
        | .ok row => processSubdirs fsys means files (some row) tsS w ds
      else
        match frS with
        | none => (w, some .nameError)
        | some frow =>
          let currFiles := pySorted (files.filter (fun f => containsStr f (d ++ "/")))
          match processFiles means tsS [frow] currFiles with
          | .error e => (w, some e)
          | .ok (ts', rows') =>
            processSubdirs fsys means files (some frow) ts' (w ++ [(d, rows')]) ds := rfl

lemma processSubdirs_nil (fsys : FSys) (means : Means) (files : List String)
    (frS : Option Row) (tsS : Option ℚ) (w : List (String × List Row)) :
    processSubdirs fsys means files frS tsS w [] = (w, none) := rfl

/-- Every table written during the directory walk comes from a
single-scenario `processFiles` run seeded with a cached `Default` row. -/
lemma processSubdirs_written {fsys : FSys} {means : Means} {files : List String}
    (hwf : meansWFB means = true) :
    ∀ (ds : List String) (frS : Option Row) (tsS : Option ℚ)
      (w : List (String × List Row)),
      (∀ d ∈ ds, endsWithStr d "opt_0" = true → defaultDirOkB fsys d = true) →
      (∀ fr, frS = some fr → fr[0]? = some (Val.str "Default") ∧ goodRow means fr) →
      (∀ tbl ∈ w, tableFromScenario means tbl) →
      ∀ tbl ∈ (processSubdirs fsys means files frS tsS w ds).1,
        tableFromScenario means tbl := by
  intro ds
  induction ds with
  | nil =>
    intro frS tsS w _ _ hw
    exact hw
  | cons d ds ih =>
    intro frS tsS w hds hfr hw
    rw [processSubdirs_cons]
    by_cases hd : endsWithStr d "opt_0" = true
    · rw [if_pos hd]
      cases hdr : defaultRowOf fsys means d with
      | error e => exact hw
      | ok row =>
        refine ih (some row) tsS w ?_ ?_ hw
        · intro d' hd' he
          exact hds d' (List.mem_cons_of_mem d hd') he
        · intro fr hfr'
          injection hfr' with hfr'
          subst hfr'
          exact defaultRowOf_ok hwf (hds d (List.mem_cons_self d ds) hd) hdr
    · rw [if_neg hd]
      cases frS with
      | none => exact hw
      | some frow =>
        dsimp only
        cases hpr : processFiles means tsS [frow]
            (pySorted (files.filter (fun f => containsStr f (d ++ "/")))) with
        | error e => exact hw
        | ok p =>
          obtain ⟨ts1, rows'⟩ := p
          refine ih (some frow) ts1 (w ++ [(d, rows')]) ?_ hfr ?_
          · intro d' hd' he
            exact hds d' (List.mem_cons_of_mem d hd') he
          · intro tbl htbl
            rcases List.mem_append.mp htbl with htbl | htbl
            · exact hw tbl htbl
            · rw [List.mem_singleton.mp htbl]
              obtain ⟨h0, hgood⟩ := hfr frow rfl
              exact ⟨frow, tsS, ts1, _, h0, hgood, hpr⟩

lemma mem_insertSorted {a b : String} :
    ∀ {l : List String}, a ∈ insertSorted b l ↔ a = b ∨ a ∈ l := by
  intro l
  induction l with
  | nil => simp [insertSorted]
  | cons c cs ih =>
    unfold insertSorted
    by_cases h : strLe b c = true
    · rw [if_pos h]
      simp
    · rw [if_neg h]
      simp only [List.mem_cons, ih]
      tauto

lemma mem_pySorted {a : String} : ∀ {l : List String}, a ∈ pySorted l ↔ a ∈ l := by
  intro l
  induction l with
  | nil => simp [pySorted]
  | cons b bs ih =>
    unfold pySorted
    rw [mem_insertSorted]
    simp [ih]

lemma two_le_countP {p : Row → Bool} :
    ∀ (rows : List Row) (i j : ℕ) (ri rj : Row),
      i < j → rows[i]? = some ri → rows[j]? = some rj → p ri = true → p rj = true →
      2 ≤ rows.countP p := by
  intro rows
  induction rows with
  | nil =>
    intro i j ri rj _ hri _ _ _
    simp at hri
  | cons r rest ih =>
    intro i j ri rj hij hri hrj hpi hpj
    cases j with
    | zero => omega
    | succ j' =>
      rw [List.getElem?_cons_succ] at hrj
      cases i with
      | zero =>
        rw [List.getElem?_cons_zero] at hri
        injection hri with hri
        subst hri
        rw [List.countP_cons, if_pos hpi]
        have hmem : rj ∈ rest := by
          obtain ⟨hlt, heq⟩ := List.getElem?_eq_some.mp hrj
          exact heq ▸ List.getElem_mem hlt
        have hpos : 0 < rest.countP p := List.countP_pos_iff.mpr ⟨rj, hmem, hpj⟩
        omega
      | succ i' =>
        rw [List.getElem?_cons_succ] at hri
        have h2 := ih i' j' ri rj (by omega) hri hrj hpi hpj
        have hle : rest.countP p ≤ (r :: rest).countP p := by
          rw [List.countP_cons]
          omega
        omega

lemma rowsSpeedupOk_singleton (fr : Row) : rowsSpeedupOk 1 [fr] := by
  intro i j t e n s ef hLi hij hti hqi htj hqj hqn hs7 hs8 hbet
  have hj := typeAt_lt_length htj
  simp at hj
  omega

lemma lastUpdOk_singleton (fr : Row) (ts : Option ℚ) : lastUpdOk 1 ts [fr] := by
  intro i ri hLi hri hupdi hafter
  obtain ⟨hlt, -⟩ := List.getElem?_eq_some.mp hri
  simp at hlt
  omega

/-! ## Claim C1: speedup and efficiency of Parallel rows -/

/-- C1: in every table written by `make_table` — run on a file system whose
`opt_0` directories hold the default serial file, with a well-formed means
dictionary — if the table contains (as the data model guarantees) at most
one `Serial` row and no `Default` row besides the injected baseline, then
every `Parallel` row that follows a `Serial` row with elapsed time `t` has
`speedup = my_round(t / elapsed)` and
`efficiency = my_round(speedup / thread_count)`. -/
theorem c1_speedup_efficiency
    (fsys : FSys) (files : List String) (means : Means)
    (hwf : meansWFB means = true)
    (hdefs : ∀ d ∈ fsys.subdirs, endsWithStr d "opt_0" = true → defaultDirOkB fsys d = true)
    (d : String) (rows : List Row)
    (hmem : (d, rows) ∈ (make_table fsys files means).1)
    (hser : countTy rows "Serial" ≤ 1) (hdefc : countTy rows "Default" ≤ 1)
    (i j : ℕ) (t e n s ef : ℚ) (hij : i < j)
    (hti : typeAt rows i = some (Val.str "Serial")) (hqi : qAt rows i 6 = some t)
    (htj : typeAt rows j = some (Val.str "Parallel")) (hqj : qAt rows j 6 = some e)
    (hqn : qAt rows j 2 = some n) (hs : qAt rows j 7 = some s)
    (hef : qAt rows j 8 = some ef) :
    s = my_round (t / e) ∧ ef = my_round (s / n) := by
  have hG : tableFromScenario means (d, rows) := by
    refine processSubdirs_written hwf (pySorted fsys.subdirs) none none [] ?_ ?_ ?_ _ hmem
    · intro d' hd' he
      exact hdefs d' (mem_pySorted.mp hd') he
    · intro fr hfr
      cases hfr
    · intro tbl htbl
      simp at htbl
  obtain ⟨fr, ts0, ts1, fs, hfr0, hfrgood, hrun⟩ := hG
  obtain ⟨tail, htail⟩ := processFiles_append fs ts0 [fr] ts1 rows hrun
  have hinv := processFiles_inv hwf 1 fs ts0 [fr] ts1 rows hrun
    (rowsSpeedupOk_singleton fr) (lastUpdOk_singleton fr ts0)
  have h0 : rows[0]? = some fr := by
    rw [htail]
    simp
  have hi1 : 1 ≤ i := by
    by_contra hlt
    have hi0 : i = 0 := by omega
    subst hi0
    unfold typeAt at hti
    rw [h0] at hti
    simp only [Option.some_bind] at hti
    rw [hfr0] at hti
    simp at hti
  have hbet : ∀ k rk, i < k → k < j → rows[k]? = some rk → updRow rk = false := by
    intro k rk hik hkj hk
    cases hru : updRow rk with
    | false => rfl
    | true =>
      exfalso
      have hcase : rk[0]? = some (Val.str "Serial") ∨ rk[0]? = some (Val.str "Default") := by
        simpa [updRow] using hru
      rcases hcase with hrk | hrk
      · obtain ⟨ri, hri, hri0⟩ := typeAt_some hti
        have h2 := @two_le_countP (fun r => decide (r[0]? = some (Val.str "Serial")))
          rows i k ri rk hik hri hk (by simp [hri0]) (by simp [hrk])
        unfold countTy at hser
        omega
      · have h2 := @two_le_countP (fun r => decide (r[0]? = some (Val.str "Default")))
          rows 0 k fr rk (by omega) h0 hk (by simp [hfr0]) (by simp [hrk])
        unfold countTy at hdefc
        omega
  exact hinv.1 i j t e n s ef hi1 hij hti hqi htj hqj hqn hs hef hbet

/-! ## Claim C5: the first row of every table is the cached default row -/

lemma processSubdirs_head {fsys : FSys} {means : Means} {files : List String} :
    ∀ (ds : List String) (fr : Row) (tsS : Option ℚ) (w : List (String × List Row)),
      (∀ d ∈ ds, endsWithStr d "opt_0" = false) →
      (∀ tbl ∈ w, tbl.2.head? = some fr) →
      ∀ tbl ∈ (processSubdirs fsys means files (some fr) tsS w ds).1,
        tbl.2.head? = some fr := by
  intro ds
  induction ds with
  | nil =>
    intro fr tsS w _ hw
    rw [processSubdirs_nil]
    exact hw
  | cons d ds ih =>
    intro fr tsS w hds hw
    rw [processSubdirs_cons]
    rw [if_neg (by simp [hds d (List.mem_cons_self d ds)])]
    dsimp only
    cases hpr : processFiles means tsS [fr]
        (pySorted (files.filter (fun f => containsStr f (d ++ "/")))) with
    | error e => exact hw
    | ok p =>
      obtain ⟨ts1, rows'⟩ := p
      refine ih fr ts1 (w ++ [(d, rows')])
        (fun d' hd' => hds d' (List.mem_cons_of_mem d hd')) ?_
      intro tbl htbl
      rcases List.mem_append.mp htbl with htbl | htbl
      · exact hw tbl htbl
      · rw [List.mem_singleton.mp htbl]
        obtain ⟨tail, htail⟩ := processFiles_append _ _ _ _ _ hpr
        rw [htail]
        rfl

/-- C5: when the sorted subdirectory walk starts with the (unique) `opt_0`
directory, whose single file yields the cached default row `fr`, the first
row of every table `make_table` writes equals `fr` by value. -/
theorem c5_first_row_default
    (fsys : FSys) (files : List String) (means : Means)
    (d0 : String) (rest : List String) (fr : Row)
    (hsort : pySorted fsys.subdirs = d0 :: rest)
    (hd0 : endsWithStr d0 "opt_0" = true)
    (hrest : ∀ d ∈ rest, endsWithStr d "opt_0" = false)
    (hdr : defaultRowOf fsys means d0 = .ok fr) :
    ∀ d rows, (d, rows) ∈ (make_table fsys files means).1 → rows.head? = some fr := by
  intro d rows hmem
  unfold make_table at hmem
  rw [hsort, processSubdirs_cons, if_pos hd0, hdr] at hmem
  exact processSubdirs_head rest fr none [] hrest (by intro tbl h; simp at h)
    (d, rows) hmem

/-! ## Claim C10: every row handed to the table writer has the 9 header fields -/

/-- C10: `calculate_means` emits the keys `time_init`, `time_sort`,
`time_elapsed` in exactly this insertion order for every file, and every row
of every table `make_table` writes has exactly as many cells as the header
(`tableFields`, 9 of them), in the order: type tag, three integers, the
three means in dictionary order, then speedup and efficiency. -/
theorem c10_row_shape :
    (∀ (data : List (String × (List ℚ × List ℚ))) (f : String) (fm : List (String × ℚ)),
        (f, fm) ∈ calculate_means data →
        fm.map Prod.fst = ["time_init", "time_sort", "time_elapsed"]) ∧
    (∀ (fsys : FSys) (files : List String) (means : Means),
        meansWFB means = true →
        (∀ d ∈ fsys.subdirs, endsWithStr d "opt_0" = true → defaultDirOkB fsys d = true) →
        ∀ d rows, (d, rows) ∈ (make_table fsys files means).1 →
          ∀ r ∈ rows, goodRow means r ∧ r.length = tableFields.length) := by
  constructor
  · intro data f fm hmem
    unfold calculate_means at hmem
    rw [List.mem_map] at hmem
    obtain ⟨dd, -, heq⟩ := hmem
    cases heq
    rfl
  · intro fsys files means hwf hdefs d rows hmem
    have hG : tableFromScenario means (d, rows) := by
      refine processSubdirs_written hwf (pySorted fsys.subdirs) none none [] ?_ ?_ ?_ _ hmem
      · intro d' hd' he
        exact hdefs d' (mem_pySorted.mp hd') he
      · intro fr hfr
        cases hfr
      · intro tbl htbl
        simp at htbl
    obtain ⟨fr, ts0, ts1, fs, hfr0, hfrgood, hrun⟩ := hG
    intro r hr
    have hgood : goodRow means r := by
      refine processFiles_good hwf fs ts0 [fr] ts1 rows hrun ?_ r hr
      intro r' hr'
      rw [List.mem_singleton.mp hr']
      exact hfrgood
    refine ⟨hgood, ?_⟩
    obtain ⟨ty, sz, nt, ol, a, b, c, s, e, f', hshape, -⟩ := hgood
    rw [hshape]
    rfl

/-- Evaluation of the whole concrete run: both tables are written — the
parallel-only scenario included — and no error is raised. -/
lemma exRun_eval : make_table exFsys exFiles exMeans =
    ([("r/opt_1", [exDefaultRow, exSerialRow1, exParallelRow1]),
      ("r/opt_2", [exDefaultRow, exParallelRow2])], none) := by
  rfl

lemma my_round_ten_thirds : my_round ((10 : ℚ) / 3) = 333333/100000 := by
  rw [my_round_eq_of_le_of_lt ((10 : ℚ) / 3) 333333 (by norm_num) (by norm_num)]
  norm_num

lemma my_round_example_eff : my_round (my_round ((10 : ℚ) / 3) / 4) = 83333/100000 := by
  rw [my_round_ten_thirds]
  rw [my_round_eq_of_le_of_lt ((333333 : ℚ) / 100000 / 4) 83333 (by norm_num) (by norm_num)]
  norm_num

lemma my_round_five : my_round ((10 : ℚ) / 2) = 5 := by
  rw [my_round_eq_of_le_of_lt ((10 : ℚ) / 2) 500000 (by norm_num) (by norm_num)]
  norm_num

lemma my_round_five_eighths : my_round (my_round ((10 : ℚ) / 2) / 8) = 5/8 := by
  rw [my_round_five]
  rw [my_round_eq_of_le_of_lt ((5 : ℚ) / 8) 62500 (by norm_num) (by norm_num)]
  norm_num

/-- Witness for C1: the specification's example scenario (`opt_1`), with
speedup `3.33333` and efficiency `0.83333`. -/
theorem c1_speedup_efficiency_witness :
    (333333/100000 : ℚ) = my_round ((10 : ℚ) / 3) ∧
    (83333/100000 : ℚ) = my_round ((333333/100000 : ℚ) / 4) :=
  c1_speedup_efficiency exFsys exFiles exMeans (by decide) (by decide)
    "r/opt_1" [exDefaultRow, exSerialRow1, exParallelRow1]
    (by exact List.Mem.head _) (by decide) (by decide)
    1 2 10 3 4 (333333/100000) (83333/100000) (by decide)
    rfl rfl rfl rfl rfl
    (by rw [show qAt [exDefaultRow, exSerialRow1, exParallelRow1] 2 7 =
          some (my_round ((10 : ℚ) / 3)) from rfl, my_round_ten_thirds])
    (by rw [show qAt [exDefaultRow, exSerialRow1, exParallelRow1] 2 8 =
          some (my_round (my_round ((10 : ℚ) / 3) / 4)) from rfl, my_round_example_eff])

/-- Witness for C5 at the concrete run. -/
theorem c5_first_row_default_witness :
    [exDefaultRow, exSerialRow1, exParallelRow1].head? = some exDefaultRow :=
  c5_first_row_default exFsys exFiles exMeans "r/opt_0" ["r/opt_1", "r/opt_2"]
    exDefaultRow (by decide) (by decide) (by decide) (by exact rfl)
    "r/opt_1" [exDefaultRow, exSerialRow1, exParallelRow1] (by exact List.Mem.head _)

/-- Witness for C10 at the concrete run. -/
theorem c10_row_shape_witness :
    (fileMeans [1, 2] [3, 4]).map Prod.fst = ["time_init", "time_sort", "time_elapsed"] ∧
    (goodRow exMeans exSerialRow1 ∧ exSerialRow1.length = tableFields.length) :=
  ⟨c10_row_shape.1 [("f.csv", ([1, 2], [3, 4]))] "f.csv" (fileMeans [1, 2] [3, 4])
      (List.mem_singleton.mpr rfl),
   c10_row_shape.2 exFsys exFiles exMeans (by decide) (by decide) "r/opt_1"
     [exDefaultRow, exSerialRow1, exParallelRow1] (by exact List.Mem.head _)
     exSerialRow1 (by exact List.Mem.tail _ (List.Mem.head _))⟩

/-- Counterexample to C3 as stated: in the concrete run, scenario `r/opt_2`
has its only (Parallel) file before any Serial file of that scenario, yet
processing does **not** fail — no error is reported, the table for that
scenario **is** produced, and its parallel row's speedup `5 = 10/2` was
computed against the stale serial baseline of the previous scenario. -/
theorem c3_missing_baseline_counterexample :
    (make_table exFsys exFiles exMeans).2 = none ∧
    ("r/opt_2", [exDefaultRow, exParallelRow2]) ∈ (make_table exFsys exFiles exMeans).1 ∧
    my_round ((10 : ℚ) / 2) = 5 ∧
    my_round (my_round ((10 : ℚ) / 2) / 8) = 5/8 := by
  refine ⟨by rw [exRun_eval], ?_, my_round_five, my_round_five_eighths⟩
  rw [exRun_eval]
  exact List.Mem.tail _ (List.Mem.head _)

/-! ## Claim C3 (amended): the missing-baseline behavior -/

lemma processFiles_cons (means : Means) (ts : Option ℚ) (rows : List Row)
    (f : String) (fs : List String) :
    processFiles means ts rows (f :: fs) =
      match processFile means ts f with
      | .error e => .error e
      | .ok (ts', row) => processFiles means ts' (rows ++ [row]) fs := rfl

/-- C3 (amended): a Parallel file processed while `time_serial` was never
assigned anywhere in the run raises the unbound-variable `NameError`; if a
Serial file of an **earlier scenario** assigned `time_serial = t0`, no error
is raised and the Parallel row is computed against that stale baseline; and
a scenario whose `processFiles` run fails stops the walk — its table and
every later table are absent and exactly the earlier tables survive. -/
theorem c3_missing_baseline_amended :
    (∀ (means : Means) (rows : List Row) (f : String) (fs : List String)
        (sz nt ol : ℤ) (fm : List (String × ℚ)) (tp : ℚ),
        parse_file_name f = .ok (false, sz, nt, ol) →
        List.lookup f means = some fm →
        List.lookup "time_elapsed" fm = some tp →
        processFiles means none rows (f :: fs) = .error .nameError) ∧
    (∀ (means : Means) (rows : List Row) (f : String) (fs : List String)
        (sz nt ol : ℤ) (fm : List (String × ℚ)) (tp t0 : ℚ),
        parse_file_name f = .ok (false, sz, nt, ol) →
        List.lookup f means = some fm →
        List.lookup "time_elapsed" fm = some tp → tp ≠ 0 →
        processFiles means (some t0) rows (f :: fs) =
          processFiles means (some t0)
            (rows ++ [([Val.str "Parallel", Val.num (sz : ℚ), Val.num (nt : ℚ),
                Val.num (ol : ℚ)] ++ fm.map (fun kv => Val.num kv.2)) ++
              [Val.num (my_round (t0 / tp)),
               Val.num (my_round (my_round (t0 / tp) / (nt : ℚ)))]]) fs) ∧
    (∀ (fsys : FSys) (means : Means) (files : List String) (frow : Row)
        (tsS : Option ℚ) (w : List (String × List Row)) (d : String)
        (ds : List String) (e : PyErr),
        endsWithStr d "opt_0" = false →
        processFiles means tsS [frow]
            (pySorted (files.filter (fun f => containsStr f (d ++ "/")))) = .error e →
        processSubdirs fsys means files (some frow) tsS w (d :: ds) = (w, some e)) := by
  refine ⟨?_, ?_, ?_⟩
  · intro means rows f fs sz nt ol fm tp hp hlk hte
    have hpf : processFile means none f = .error .nameError := by
      unfold processFile create_row
      rw [hp]
      dsimp only
      rw [hlk]
      dsimp only
      simp only [Option.some_bind]
      rw [hte]
      simp
    rw [processFiles_cons, hpf]
  · intro means rows f fs sz nt ol fm tp t0 hp hlk hte htp
    have hpf : processFile means (some t0) f =
        .ok (some t0, ([Val.str "Parallel", Val.num (sz : ℚ), Val.num (nt : ℚ),
            Val.num (ol : ℚ)] ++ fm.map (fun kv => Val.num kv.2)) ++
          [Val.num (my_round (t0 / tp)),
           Val.num (my_round (my_round (t0 / tp) / (nt : ℚ)))]) := by
      unfold processFile create_row
      rw [hp]
      dsimp only
      rw [hlk]
      dsimp only
      simp only [Option.some_bind]
      rw [hte]
      dsimp only
      rw [if_neg htp]
      simp
    rw [processFiles_cons, hpf]
  · intro fsys means files frow tsS w d ds e hd hpr
    rw [processSubdirs_cons, if_neg (by simp [hd])]
    dsimp only
    rw [hpr]

/-- Witness for the amended C3 at the concrete run: the parallel-only file
of `r/opt_2` raises `NameError` when no baseline exists anywhere, is
computed against the stale baseline `10` when one exists, and a failing
scenario stops the walk keeping exactly the earlier tables. -/
theorem c3_missing_baseline_amended_witness :
    processFiles exMeans none [] ["r/opt_2/S10_T8_O2.csv"] = .error .nameError ∧
    processFiles exMeans (some 10) [] ["r/opt_2/S10_T8_O2.csv"] =
      processFiles exMeans (some 10)
        ([] ++ [([Val.str "Parallel", Val.num ((10 : ℤ) : ℚ), Val.num ((8 : ℤ) : ℚ),
            Val.num ((2 : ℤ) : ℚ)] ++
            (List.map (fun kv => Val.num kv.2)
              [("time_init", (1 : ℚ)), ("time_sort", (1 : ℚ)), ("time_elapsed", (2 : ℚ))])) ++
          [Val.num (my_round ((10 : ℚ) / 2)),
           Val.num (my_round (my_round ((10 : ℚ) / 2) / ((8 : ℤ) : ℚ)))]]) [] ∧
    processSubdirs exFsys exMeans exFiles (some exDefaultRow) none [] ["r/opt_2"] =
      ([], some .nameError) :=
  ⟨c3_missing_baseline_amended.1 exMeans [] "r/opt_2/S10_T8_O2.csv" [] 10 8 2
      [("time_init", 1), ("time_sort", 1), ("time_elapsed", 2)] 2 rfl rfl rfl,
   c3_missing_baseline_amended.2.1 exMeans [] "r/opt_2/S10_T8_O2.csv" [] 10 8 2
      [("time_init", 1), ("time_sort", 1), ("time_elapsed", 2)] 2 10 rfl rfl rfl
      (by norm_num),
   c3_missing_baseline_amended.2.2 exFsys exMeans exFiles exDefaultRow none []
      "r/opt_2" [] .nameError (by decide) (by exact rfl)⟩

/-! ## Claim C7 (amended): malformed names abort the run -/

lemma charIndexFrom_eq_none {cs : List Char} {c : Char} {s : ℕ} (h : c ∉ cs) :
    charIndexFrom cs c s = none := by
  unfold charIndexFrom
  have hfind : (cs.drop s).findIdx? (fun a => a == c) = none := by
    rw [List.findIdx?_eq_none_iff]
    intro x hx
    have hxcs : x ∈ cs := List.mem_of_mem_drop hx
    simp only [beq_eq_false_iff_ne, ne_eq]
    intro hxc
    exact h (hxc ▸ hxcs)
  rw [hfind]
  rfl

/-- C7 (amended): a base name missing any of the `S`/`T`/`O` markers makes
`parse_file_name` fail, every `parse_file_name` failure is the (uncaught)
`ValueError`, and such a failure propagates: the whole `processFiles` loop
of the scenario aborts with it — the file is not merely skipped, nothing
after it in the run is processed. -/
theorem c7_malformed_amended :
    (∀ f : String, ('S' ∉ pyBasename f.toList ∨ 'T' ∉ pyBasename f.toList ∨
        'O' ∉ pyBasename f.toList) → parse_file_name f = .error .valueError) ∧
    (∀ (f : String) (e : PyErr), parse_file_name f = .error e → e = .valueError) ∧
    (∀ (means : Means) (ts : Option ℚ) (rows : List Row) (fs1 : List String)
        (f : String) (fs2 : List String) (ts1 : Option ℚ) (rows1 : List Row) (e : PyErr),
        processFiles means ts rows fs1 = .ok (ts1, rows1) →
        parse_file_name f = .error e →
        processFiles means ts rows (fs1 ++ f :: fs2) = .error e) := by
  refine ⟨?_, ?_, ?_⟩
  · intro f hf
    rcases hf with hS | hT | hO
    · simp only [parse_file_name, charIndexFrom_eq_none hS]
    · simp only [parse_file_name, charIndexFrom_eq_none hT]
      repeat' split
      all_goals rfl
    · simp only [parse_file_name, charIndexFrom_eq_none hO]
      repeat' split
      all_goals rfl
  · intro f e h
    simp only [parse_file_name] at h
    repeat' split at h
    all_goals (cases h; try rfl)
  · intro means ts rows fs1
    induction fs1 generalizing ts rows with
    | nil =>
      intro f fs2 ts1 rows1 e hok hperr
      have hpf : processFile means ts f = .error e := by
        unfold processFile
        rw [hperr]
      rw [List.nil_append, processFiles_cons, hpf]
    | cons g gs ih =>
      intro f fs2 ts1 rows1 e hok hperr
      rw [processFiles_cons] at hok
      rw [List.cons_append, processFiles_cons]
      cases hpg : processFile means ts g with
      | error e' => rw [hpg] at hok; exact absurd hok (by simp)
      | ok p =>
        obtain ⟨ts2, row⟩ := p
        rw [hpg] at hok
        dsimp only at hok
        dsimp only
        exact ih ts2 (rows ++ [row]) f fs2 ts1 rows1 e hok hperr

/-- Counterexample to C7 as stated: `foo.csv` cannot be decoded, but the
run does **not** continue — the uncaught `ValueError` aborts `make_table`:
no table at all is written, neither for `q/opt_1` (the claim expected it
with `foo.csv` merely excluded) nor for the untouched scenario `q/opt_2`. -/
theorem c7_malformed_counterexample :
    parse_file_name "foo.csv" = .error .valueError ∧
    make_table exFsys2 exFiles2 exMeans2 = ([], some .valueError) :=
  ⟨rfl, rfl⟩

/-- Witness for the amended C7 at concrete inputs. -/
theorem c7_malformed_amended_witness :
    parse_file_name "foo.csv" = .error .valueError ∧
    processFiles exMeans2 none [] ([] ++ "q/opt_1/foo.csv" :: []) = .error .valueError :=
  ⟨c7_malformed_amended.1 "foo.csv" (Or.inl (by decide)),
   c7_malformed_amended.2.2 exMeans2 none [] [] "q/opt_1/foo.csv" [] none [] .valueError
     rfl rfl⟩
